import Mathlib

/-!
Verification of the devento-ai/sdk-go command-execution core against its
natural-language specification.

The Go source is shallowly embedded:
* `ParseSSE` (sse.go) is modelled on the list of lines produced by the
  line scanner (`bufio.Scanner` strips the newline terminators).
* `runWithStreaming` and the polling loop of `Run` (box_handle.go) are
  modelled as recursive functions over a finite trace of observations;
  each observation is paired with the value of `time.Now()` (a `Nat`
  instant) at the deadline check of that loop iteration.  JSON decoding
  (`ParseSSEData` / `json.Unmarshal` plus the Go type assertions on
  `map[string]any`) is external library code; its outcome is embedded as
  the already-decoded payload carried by each event (`Option` marks a
  failed decode or a missing / wrongly-typed field).
* Go strings are Lean `String`s; Go string-typed enums (`CommandStatus`,
  `BoxStatus`, `SnapshotStatus`) are plain strings with named constants.
* Callback invocations (`opts.OnStdout` / `opts.OnStderr`) are recorded
  as traces (lists of the lines passed to the callback).
-/

namespace Devento

/-! ## Data model (models.go) -/

def CommandStatusQueued : String := "queued"

def CommandStatusRunning : String := "running"

def CommandStatusDone : String := "done"

def CommandStatusFailed : String := "failed"

def CommandStatusError : String := "error"

def BoxStatusRunning : String := "running"

def BoxStatusFailed : String := "failed"

def BoxStatusTerminated : String := "terminated"

/-- The `CommandResult` struct of models.go.  `exitCode` is the defaulted
`int` (the Go code substitutes 0 for a nil `*int`). -/
structure CommandResult where
  id : String
  boxID : String
  cmd : String
  status : String
  stdout : String
  stderr : String
  exitCode : Int
deriving DecidableEq, Repr

/-- The `Command` struct of models.go as returned by one polling fetch:
`exitCode` is the optional `*int` field. -/
structure Command where
  id : String
  boxID : String
  cmd : String
  status : String
  stdout : String
  stderr : String
  exitCode : Option Int
deriving DecidableEq, Repr

/-! ## SSE decoder (sse.go, `ParseSSE`) -/

/-- An `SSEEvent` value emitted on the channel by `ParseSSE`. -/
structure SSEEvent where
  event : String
  data : String
deriving DecidableEq, Repr

/-- The loop body of `ParseSSE`: `pending₁` and `pending₂` are the `event`
and `data` local variables.  A blank line emits the pending pair when both
are non-empty and resets both; an `event: ` line replaces the pending
event name; a `data: ` line replaces the pending data payload; any other
line is skipped.  The input is the list of scanner lines. -/
def parseSSELoop : List String → String → String → List SSEEvent
  | [], _, _ => []
  | line :: rest, event, data =>
    if line = "" then
      (if event ≠ "" ∧ data ≠ "" then [⟨event, data⟩] else []) ++ parseSSELoop rest "" ""
    else if "event: ".isPrefixOf line then
      parseSSELoop rest (line.drop 7) data
    else if "data: ".isPrefixOf line then
      parseSSELoop rest event (line.drop 6)
    else
      parseSSELoop rest event data

/-- `ParseSSE` of sse.go, on the line sequence of the byte stream. -/
def ParseSSE (lines : List String) : List SSEEvent :=
  parseSSELoop lines "" ""

/-- Specification-side reading of one block: the pending `(event, data)`
pair accumulated by reading the block's lines in order, each `event: `
line setting the event name to its suffix and each `data: ` line setting
the data payload to its suffix (so the pair holds the most recently seen
values), starting from empty. -/
def blockPending (block : List String) : String × String :=
  block.foldl
    (fun acc line =>
      if "event: ".isPrefixOf line then (line.drop 7, acc.2)
      else if "data: ".isPrefixOf line then (acc.1, line.drop 6)
      else acc)
    ("", "")

/-- Specification-side block splitter: the maximal blank-line-free runs of
the input, keeping exactly those runs that are terminated by a blank line
(a trailing run that never reaches a blank line is dropped).  `cur` is the
lines of the block read so far. -/
def sseBlocks : List String → List String → List (List String)
  | [], _ => []
  | line :: rest, cur =>
    if line = "" then cur :: sseBlocks rest []
    else sseBlocks rest (cur ++ [line])

/-- Specification-side emission for one terminated block: the pair is
emitted exactly when both the accumulated event name and the accumulated
data payload are non-empty; a block missing either field emits nothing. -/
def sseBlockEmit (b : List String) : Option SSEEvent :=
  if (blockPending b).1 ≠ "" ∧ (blockPending b).2 ≠ "" then
    some ⟨(blockPending b).1, (blockPending b).2⟩
  else none

/-- Specification-side emission: one pair per terminated block whose
accumulated event name and data payload are both non-empty, carrying the
most recently seen values; blocks missing either field emit nothing. -/
def sseSpecEmit (lines : List String) : List SSEEvent :=
  (sseBlocks lines []).filterMap sseBlockEmit

/-! ## Streaming executor (box_handle.go, `runWithStreaming`) -/

/-- Decoded payload of a `start` event (`SSEStartData`); `commandID` is the
`command_id` field, `""` when the JSON object omits it. -/
structure StartData where
  commandID : String
deriving DecidableEq, Repr

/-- Decoded payload of an `output` event: the results of the
`data["stdout"].(string)` and `data["stderr"].(string)` type assertions
(`none` when the key is absent or not a string). -/
structure OutputData where
  stdoutField : Option String
  stderrField : Option String
deriving DecidableEq, Repr

/-- Decoded payload of a `status` event: the `data["status"].(string)` and
`data["exit_code"].(float64)` assertion results (the float is converted to
`int` by the Go code). -/
structure StatusData where
  statusField : Option String
  exitCodeField : Option Int
deriving DecidableEq, Repr

/-- A decoded SSE event as dispatched by the `switch event.Event` of
`runWithStreaming`.  Each payload-carrying case holds the result of
`ParseSSEData` (`none` when JSON decoding failed). -/
inductive StreamEvent
  | start (payload : Option StartData)
  | output (payload : Option OutputData)
  | statusEvt (payload : Option StatusData)
  | endEvt (payload : Option (Option String))
  | errorEvt (payload : Option (Option String))
  | timeout
  | other (name : String)
deriving DecidableEq, Repr

/-- The local accumulation state of `runWithStreaming` (`commandID`,
`status`, `stdout`, `stderr`, `exitCode`), extended with the trace of
lines passed to the stdout and stderr callbacks. -/
structure StreamAcc where
  commandID : String
  status : String
  stdout : String
  stderr : String
  exitCode : Int
  stdoutCalls : List String
  stderrCalls : List String
deriving DecidableEq, Repr

/-- The initial accumulation state of `runWithStreaming`. -/
def initStreamAcc : StreamAcc :=
  { commandID := "", status := CommandStatusQueued, stdout := "", stderr := "",
    exitCode := 0, stdoutCalls := [], stderrCalls := [] }

/-- The call-independent inputs of `runWithStreaming`: the box id, the
command text, `opts.Timeout` (milliseconds), the computed deadline
instant, and whether `opts.OnStdout` / `opts.OnStderr` are non-nil. -/
structure StreamCtx where
  boxID : String
  command : String
  timeoutMs : Int
  deadline : Nat
  onStdoutSet : Bool
  onStderrSet : Bool
deriving DecidableEq, Repr

/-- The possible returns of `runWithStreaming` after the stream is open. -/
inductive RunOutcome
  | ok (r : CommandResult)
  | cmdTimeout (commandID : String) (timeoutMs : Int)
  | cmdError (msg : String)
deriving DecidableEq, Repr

/-- The newline split of `strings.Split` on the character list of `s`. -/
def splitNLAux : List Char → List (List Char)
  | [] => [[]]
  | c :: cs =>
    if c = '\n' then [] :: splitNLAux cs
    else
      match splitNLAux cs with
      | [] => [[c]]
      | l :: ls => (c :: l) :: ls

/-- The Go `strings.Split` of `s` on the newline character: the pieces of `s`
(always at least one piece; a trailing newline yields a final empty
piece). -/
def splitNL (s : String) : List String :=
  (splitNLAux s.data).map List.asString

/-- The lines for which the per-fragment dispatch loop of
`runWithStreaming` fires the callback: every split piece except that the
final piece is skipped when it is empty (the loop guard
`i < len(lines)-1 || line != ""`). -/
def emittedLines : List String → List String
  | [] => []
  | [last] => if last ≠ "" then [last] else []
  | line :: rest => line :: emittedLines rest

/-- The `output` case of `runWithStreaming` on a successfully decoded
payload: each non-empty fragment is appended to the running total and,
when the matching callback is set, dispatched line by line. -/
def stepOutput (ctx : StreamCtx) (acc : StreamAcc) (d : OutputData) : StreamAcc :=
  let acc1 :=
    match d.stdoutField with
    | some s =>
      if s ≠ "" then
        { acc with
          stdout := acc.stdout ++ s,
          stdoutCalls := acc.stdoutCalls ++
            (if ctx.onStdoutSet then emittedLines (splitNL s) else []) }
      else acc
    | none => acc
  match d.stderrField with
  | some s =>
    if s ≠ "" then
      { acc1 with
        stderr := acc1.stderr ++ s,
        stderrCalls := acc1.stderrCalls ++
          (if ctx.onStderrSet then emittedLines (splitNL s) else []) }
    else acc1
  | none => acc1

/-- The `status` case of `runWithStreaming` on a successfully decoded
payload: a present status string replaces the accumulated status and a
present exit code replaces the accumulated exit code. -/
def stepStatus (acc : StreamAcc) (d : StatusData) : StreamAcc :=
  let acc1 :=
    match d.statusField with
    | some s => { acc with status := s }
    | none => acc
  match d.exitCodeField with
  | some ec => { acc1 with exitCode := ec }
  | none => acc1

/-- The state transition of `runWithStreaming` for the events that do not
return from the loop (`start`, `output`, `status`, and unrecognized event
names); a failed payload decode leaves the state unchanged. -/
def stepNonTerminal (ctx : StreamCtx) (acc : StreamAcc) : StreamEvent → StreamAcc
  | .start (some d) => { acc with commandID := d.commandID }
  | .output (some d) => stepOutput ctx acc d
  | .statusEvt (some d) => stepStatus acc d
  | _ => acc

/-- The `CommandResult` literal built by `runWithStreaming` from the
accumulated state. -/
def mkStreamResult (ctx : StreamCtx) (acc : StreamAcc) : CommandResult :=
  { id := acc.commandID, boxID := ctx.boxID, cmd := ctx.command,
    status := acc.status, stdout := acc.stdout, stderr := acc.stderr,
    exitCode := acc.exitCode }

/-- The event loop of `runWithStreaming` over a finite decoded event
trace; each event is paired with the `time.Now()` instant observed at the
deadline check of its iteration.  Falling off the end of the trace is the
"stream ended without proper completion" return.  The returned pair also
carries the final accumulation state (for the callback traces). -/
def runStreamLoop (ctx : StreamCtx) : List (Nat × StreamEvent) → StreamAcc → RunOutcome × StreamAcc
  | [], acc => (.ok (mkStreamResult ctx acc), acc)
  | (now, ev) :: rest, acc =>
    if ctx.deadline < now then (.cmdTimeout acc.commandID ctx.timeoutMs, acc)
    else
      match ev with
      | .endEvt payload =>
        (match payload with
         | some (some s) =>
           if s = "error" then
             (.ok (mkStreamResult ctx { acc with status := CommandStatusError }),
              { acc with status := CommandStatusError })
           else if s = "timeout" then (.cmdTimeout acc.commandID ctx.timeoutMs, acc)
           else (.ok (mkStreamResult ctx acc), acc)
         | some none => (.ok (mkStreamResult ctx acc), acc)
         | none => (.ok (mkStreamResult ctx acc), acc))
      | .errorEvt payload =>
        (match payload with
         | some (some msg) => (.cmdError ("command error: " ++ msg), acc)
         | some none => (.cmdError "command error", acc)
         | none => (.cmdError "command error", acc))
      | .timeout => (.cmdTimeout acc.commandID ctx.timeoutMs, acc)
      | e => runStreamLoop ctx rest (stepNonTerminal ctx acc e)

/-- `runWithStreaming` after the stream is open, from the initial state. -/
def runWithStreaming (ctx : StreamCtx) (events : List (Nat × StreamEvent)) : RunOutcome × StreamAcc :=
  runStreamLoop ctx events initStreamAcc

/-! ## Polling executor (box_handle.go, `Run`, non-streaming branch) -/

/-- The terminal-status switch of the polling loop: `done`, `failed` and
`error` all stop the loop. -/
def isTerminalStatus (s : String) : Bool :=
  s = CommandStatusDone ∨ s = CommandStatusFailed ∨ s = CommandStatusError

/-- The `CommandResult` literal built by the polling loop from a fetched
command, defaulting a nil exit code to 0. -/
def mkPollResult (c : Command) : CommandResult :=
  { id := c.id, boxID := c.boxID, cmd := c.cmd, status := c.status,
    stdout := c.stdout, stderr := c.stderr, exitCode := c.exitCode.getD 0 }

/-- One polling-mode outcome: either a result, or the command-timeout
error, or `divergent` when the finite fetch trace is exhausted (the Go
loop would keep polling). -/
inductive PollOutcome
  | result (r : CommandResult)
  | cmdTimeout (commandID : String) (timeoutMs : Int)
  | divergent
deriving DecidableEq, Repr

/-- The polling loop of `Run`: each trace element is one status fetch,
paired with the `time.Now()` instant at that iteration's deadline check.
A terminal status returns the result; otherwise an instant past the
deadline returns the command-timeout error; otherwise the loop sleeps and
fetches again. -/
def runPollLoop (deadline : Nat) (timeoutMs : Int) : List (Nat × Command) → PollOutcome
  | [] => .divergent
  | (now, c) :: rest =>
    if isTerminalStatus c.status then .result (mkPollResult c)
    else if deadline < now then .cmdTimeout c.id timeoutMs
    else runPollLoop deadline timeoutMs rest

/-! ## Option defaulting (box_handle.go, `Run`, lines 88-99) -/

/-- The `CommandOptions` struct of models.go, generic over the callback
type: `onStdout` / `onStderr` model the two function-typed fields, with
`none` for a nil callback. -/
structure CommandOptions (κ : Type) where
  timeoutMs : Int
  pollIntervalMs : Int
  onStdout : Option κ
  onStderr : Option κ
deriving DecidableEq, Repr

/-- The defaulting writes `Run` performs through the caller's
`CommandOptions` pointer before choosing a mode: a zero timeout becomes
300000 ms and a zero poll interval becomes 1000 ms.  Go mutates the
caller's struct in place; the caller's struct after `Run` returns is this
function of its pre-call value. -/
def normalizeOptions {κ : Type} (opts : CommandOptions κ) : CommandOptions κ :=
  let o1 := if opts.timeoutMs = 0 then { opts with timeoutMs := 300000 } else opts
  if o1.pollIntervalMs = 0 then { o1 with pollIntervalMs := 1000 } else o1

/-! ## Box readiness poller (box_handle.go, `WaitUntilReady`) -/

/-- The fields of the `Box` struct consulted by `WaitUntilReady` after a
refresh. -/
structure BoxState where
  id : String
  status : String
  details : String
deriving DecidableEq, Repr

/-- The outcome of `WaitUntilReady`: success, the formatted
failed-to-start error, the box-timeout error (carrying the configured
timeout converted to whole seconds), or `divergent` when the finite
refresh trace is exhausted. -/
inductive WaitOutcome
  | ok
  | startFailed (msg : String)
  | boxTimeout (boxID : String) (timeoutSecs : Int)
  | divergent
deriving DecidableEq, Repr

/-- The loop of `WaitUntilReady` over a finite refresh trace, each element
one refreshed box state paired with the `time.Now()` instant at that
iteration's deadline check.  `running` succeeds; `failed` or `terminated`
returns the formatted error immediately; otherwise an instant past the
deadline returns the box-timeout error carrying `timeoutSecs`
(`int(timeout.Seconds())`, the configured timeout). -/
def waitUntilReadyLoop (deadline : Nat) (timeoutSecs : Int) : List (Nat × BoxState) → WaitOutcome
  | [] => .divergent
  | (now, b) :: rest =>
    if b.status = BoxStatusRunning then .ok
    else if b.status = BoxStatusFailed ∨ b.status = BoxStatusTerminated then
      .startFailed ("box " ++ b.id ++ " failed to start: " ++ b.details)
    else if deadline < now then .boxTimeout b.id timeoutSecs
    else waitUntilReadyLoop deadline timeoutSecs rest

/-! ## Snapshot readiness poller (`WaitSnapshotReady`) -/

def SnapshotStatusReady : String := "ready"

def SnapshotStatusError : String := "error"

def SnapshotStatusDeleted : String := "deleted"

/-- The outcome of `WaitSnapshotReady`: success, the terminal-status
error naming the observed status, or the command-timeout-kind error
carrying the deadline expressed in milliseconds. -/
inductive SnapshotWaitOutcome
  | ok
  | snapFailed (msg : String)
  | cmdTimeout (id : String) (timeoutMs : Int)
  | divergent
deriving DecidableEq, Repr

/-- Modelled from the spec: the implementation of `WaitSnapshotReady` is
not among the provided sources (only its tests and example callers are).
Per spec section 4.3 the loop has the identical shape to `WaitUntilReady`:
success on `ready`; fast-fail on `error` or `deleted` with a message
naming the terminal status (the tests expect exactly
`snapshot <id> ended with status: <status>`); otherwise poll until the
deadline and fail with the command-timeout error kind parameterized by
the deadline in milliseconds (the tests expect the `Timeout` field to
equal the configured deadline in ms).  `start` is the entry instant and
`timeoutMs` the configured deadline duration, so the deadline instant is
`start + timeoutMs`; each trace element is one fetched snapshot status
paired with its observation instant. -/
def waitSnapshotReadyLoop (start timeoutMs : Nat) (snapshotID : String) :
    List (Nat × String) → SnapshotWaitOutcome
  | [] => .divergent
  | (now, s) :: rest =>
    if s = SnapshotStatusReady then .ok
    else if s = SnapshotStatusError ∨ s = SnapshotStatusDeleted then
      .snapFailed ("snapshot " ++ snapshotID ++ " ended with status: " ++ s)
    else if start + timeoutMs < now then .cmdTimeout snapshotID timeoutMs
    else waitSnapshotReadyLoop start timeoutMs snapshotID rest

/-! ## Error classifier (errors.go, `parseError`) -/

/-- The structured error body decoded from a non-2xx response. -/
structure ErrorResponse where
  error : String
  message : String
  code : String
deriving DecidableEq, Repr

/-- The kind-specific fields of each error type of errors.go.  The two
credit quantities are `float64` in Go; they are embedded as rationals
(nothing proved here depends on float rounding). -/
inductive ErrorKind
  | authentication
  | boxNotFound (boxID : String)
  | cmdTimeout (commandID : String) (timeoutMs : Int)
  | boxTimeout (boxID : String) (timeoutSecs : Int)
  | rateLimit (retryAfter : Int)
  | validation (field : String)
  | insufficientCredits (required available : ℚ)
  | api
deriving DecidableEq, Repr

/-- A classified error: the embedded base struct (message, HTTP status
code, machine code string) plus the kind-specific fields. -/
structure SDKError where
  kind : ErrorKind
  message : String
  statusCode : Int
  code : String
deriving DecidableEq, Repr

/-- `NewAPIError` of errors.go. -/
def NewAPIError (statusCode : Int) (message : String) : SDKError :=
  ⟨.api, message, statusCode, "api_error"⟩

/-- `NewInsufficientCreditsError` of errors.go (the formatted message
renders the quantities; the exact two-decimal float rendering is not
modelled). -/
def NewInsufficientCreditsError (required available : ℚ) : SDKError :=
  ⟨.insufficientCredits required available,
   "Insufficient credits. Required: " ++ toString required ++
     ", Available: " ++ toString available,
   402, "insufficient_credits"⟩

/-- `parseError` of errors.go: a present `message` field wins over
`error` for the text; the status code selects the kind, with the `code`
field disambiguating 404 and 400. -/
def parseError (statusCode : Int) (errResp : ErrorResponse) : SDKError :=
  let message := if errResp.message = "" then errResp.error else errResp.message
  if statusCode = 401 then ⟨.authentication, message, 401, "authentication_error"⟩
  else if statusCode = 402 then NewAPIError statusCode message
  else if statusCode = 404 then
    if errResp.code = "box_not_found" then
      ⟨.boxNotFound "", message, statusCode, errResp.code⟩
    else NewAPIError statusCode message
  else if statusCode = 429 then
    ⟨.rateLimit 0, "Rate limit exceeded. Retry after 0 seconds", 429, "rate_limit"⟩
  else if statusCode = 400 then
    if errResp.code = "validation_error" then
      ⟨.validation "", "Validation error on field '': " ++ message, 400, "validation_error"⟩
    else NewAPIError statusCode message
  else NewAPIError statusCode message

/-! ## Theorems: SSE decoder -/

lemma blockPending_append (cur : List String) (line : String) :
    blockPending (cur ++ [line]) =
      (if "event: ".isPrefixOf line then ((line.drop 7), (blockPending cur).2)
       else if "data: ".isPrefixOf line then ((blockPending cur).1, (line.drop 6))
       else blockPending cur) := by
  simp [blockPending, List.foldl_append]

lemma parseSSELoop_eq_blocks (lines : List String) :
    ∀ cur : List String,
      parseSSELoop lines (blockPending cur).1 (blockPending cur).2
        = (sseBlocks lines cur).filterMap sseBlockEmit := by
  induction lines with
  | nil => intro cur; simp [parseSSELoop, sseBlocks]
  | cons line rest ih =>
    intro cur
    by_cases hb : line = ""
    · subst hb
      have h0 : blockPending ([] : List String) = ("", "") := rfl
      have tail := ih []
      rw [h0] at tail
      simp only [parseSSELoop, sseBlocks, if_pos rfl, List.filterMap_cons, tail, sseBlockEmit]
      by_cases hc : (blockPending cur).1 ≠ "" ∧ (blockPending cur).2 ≠ ""
      · simp [List.filterMap_cons, sseBlockEmit, hc]
      · simp [List.filterMap_cons, sseBlockEmit, hc]
    · by_cases he : "event: ".isPrefixOf line
      · have hp : blockPending (cur ++ [line]) = ((line.drop 7), (blockPending cur).2) := by
          rw [blockPending_append]; simp [he]
        have step := ih (cur ++ [line])
        rw [hp] at step
        simpa [parseSSELoop, sseBlocks, hb, he] using step
      · by_cases hd : "data: ".isPrefixOf line
        · have hp : blockPending (cur ++ [line]) = ((blockPending cur).1, (line.drop 6)) := by
            rw [blockPending_append]; simp [he, hd]
          have step := ih (cur ++ [line])
          rw [hp] at step
          simpa [parseSSELoop, sseBlocks, hb, he, hd] using step
        · have hp : blockPending (cur ++ [line]) = blockPending cur := by
            rw [blockPending_append]; simp [he, hd]
          have step := ih (cur ++ [line])
          rw [hp] at step
          simpa [parseSSELoop, sseBlocks, hb, he, hd] using step

/-- C5: for every line stream, `ParseSSE` emits exactly one pair per
blank-line-terminated block whose accumulated event name and (non-empty)
data payload are both present, carrying the most recently seen values;
a blank line always resets both pending fields, a block missing either
field emits nothing, and lines with neither prefix are ignored.  The
right-hand side evaluates each block independently, so the equality
states exactly this block-by-block emission discipline. -/
theorem parseSSE_block_emission (lines : List String) :
    ParseSSE lines = sseSpecEmit lines := by
  have h := parseSSELoop_eq_blocks lines []
  simpa [ParseSSE, sseSpecEmit, blockPending] using h

lemma parseSSELoop_no_blank (t : List String) (h : ∀ l ∈ t, l ≠ "") :
    ∀ event data : String, parseSSELoop t event data = [] := by
  induction t with
  | nil => intro e d; rfl
  | cons line rest ih =>
    intro e d
    have hline : line ≠ "" := h line (by simp)
    have hrest : ∀ l ∈ rest, l ≠ "" := fun l hl => h l (by simp [hl])
    by_cases he : "event: ".isPrefixOf line
    · simp [parseSSELoop, hline, he, ih hrest]
    · by_cases hd : "data: ".isPrefixOf line
      · simp [parseSSELoop, hline, he, hd, ih hrest]
      · simp [parseSSELoop, hline, he, hd, ih hrest]

lemma parseSSELoop_append_no_blank (t : List String) (h : ∀ l ∈ t, l ≠ "") :
    ∀ (lines : List String) (event data : String),
      parseSSELoop (lines ++ t) event data = parseSSELoop lines event data := by
  intro lines
  induction lines with
  | nil => intro e d; simpa [parseSSELoop] using parseSSELoop_no_blank t h e d
  | cons line rest ih =>
    intro e d
    by_cases hb : line = ""
    · subst hb; simp [parseSSELoop, ih]
    · by_cases he : "event: ".isPrefixOf line
      · simp [parseSSELoop, hb, he, ih]
      · by_cases hd : "data: ".isPrefixOf line
        · simp [parseSSELoop, hb, he, hd, ih]
        · simp [parseSSELoop, hb, he, hd, ih]

/-- C9: lines that follow the last blank line never contribute an event:
if the stream reaches end-of-file while an event name and a data payload
are pending but no blank line has followed them, that pending pair is not
emitted (only a blank line flushes a pair). -/
theorem parseSSE_unterminated_block_lost (lines trailing : List String)
    (h : ∀ l ∈ trailing, l ≠ "") :
    ParseSSE (lines ++ trailing) = ParseSSE lines := by
  simpa [ParseSSE] using parseSSELoop_append_no_blank trailing h lines "" ""

/-- Witness for C9 at a concrete stream: the trailing block has both an
event name and a data payload pending at end-of-file and is dropped. -/
theorem parseSSE_unterminated_block_lost_witness :
    (∀ l ∈ (["event: end", "data: {}"] : List String), l ≠ "") ∧
      ParseSSE (["event: start", "data: x", ""] ++ ["event: end", "data: {}"])
        = ParseSSE ["event: start", "data: x", ""] := by
  refine ⟨by decide, ?_⟩
  exact parseSSE_unterminated_block_lost ["event: start", "data: x", ""]
    ["event: end", "data: {}"] (by decide)

/-! ## Theorems: streaming executor -/

/-- C1 counterexample: a single `end` event whose decoded status payload
is `done` on a fresh stream.  The claim as stated says that value becomes
the returned result's final status; the code never adopts the payload of
an `end` event, so the result keeps the accumulated status `queued`. -/
theorem runStream_end_status_not_adopted :
    (runWithStreaming ⟨"box-1", "ls", 5000, 100, true, false⟩
        [(0, .endEvt (some (some "done")))]).1
      = .ok ⟨"", "box-1", "ls", "queued", "", "", 0⟩ ∧
    ("queued" : String) ≠ "done" := by
  exact ⟨by decide, by decide⟩

/-- C1 amended: on a decoded `end` event observed at or before the
deadline, a status payload of `timeout` returns the command-timeout error
(carrying the known command id and the configured timeout); a payload of
`error` returns the accumulated result with its status replaced by
`error`; any other payload (any other string, a missing or non-string
status field, or an undecodable body) returns the accumulated result with
its status unchanged; and in every non-timeout case the accumulated
result is returned immediately, with the remaining events never
processed (the outcome does not depend on `rest`). -/
theorem runStream_end_event (ctx : StreamCtx) (acc : StreamAcc) (now : Nat)
    (rest : List (Nat × StreamEvent)) (payload : Option (Option String))
    (h : now ≤ ctx.deadline) :
    runStreamLoop ctx ((now, .endEvt payload) :: rest) acc =
      (match payload with
       | some (some s) =>
         if s = "timeout" then (.cmdTimeout acc.commandID ctx.timeoutMs, acc)
         else if s = "error" then
           (.ok (mkStreamResult ctx { acc with status := CommandStatusError }),
            { acc with status := CommandStatusError })
         else (.ok (mkStreamResult ctx acc), acc)
       | _ => (.ok (mkStreamResult ctx acc), acc)) := by
  have hnot : ¬ ctx.deadline < now := by omega
  match payload with
  | some (some s) =>
    by_cases herr : s = "error"
    · simp [runStreamLoop, hnot, herr, CommandStatusError]
    · by_cases hto : s = "timeout"
      · simp [runStreamLoop, hnot, herr, hto]
      · simp [runStreamLoop, hnot, herr, hto]
  | some none => simp [runStreamLoop, hnot]
  | none => simp [runStreamLoop, hnot]

/-- Witness for C1 at a concrete input: an `end` event with payload
status `timeout` at instant 0 against deadline 100 yields the
command-timeout error, even with further events pending. -/
theorem runStream_end_event_witness :
    (0 : Nat) ≤ 100 ∧
    runStreamLoop ⟨"box-1", "ls", 5000, 100, true, false⟩
        [(0, .endEvt (some (some "timeout"))), (1, .timeout)] initStreamAcc
      = (.cmdTimeout "" 5000, initStreamAcc) := by
  refine ⟨by decide, ?_⟩
  have h := runStream_end_event ⟨"box-1", "ls", 5000, 100, true, false⟩
    initStreamAcc 0 [(1, .timeout)] (some (some "timeout")) (by decide)
  simpa using h

/-- Whether the `switch` of `runWithStreaming` returns from the loop on
this event (`end`, `error` and `timeout` cases). -/
def isTerminalEvt : StreamEvent → Bool
  | .endEvt _ => true
  | .errorEvt _ => true
  | .timeout => true
  | _ => false

/-- C2: when the decoded event sequence is exhausted with no `end`,
`error` or `timeout` event observed (and no event past the deadline, which
would return the timeout error first), the streaming executor returns a
non-error result carrying exactly the accumulated command id, status,
stdout, stderr and exit code — the fold of the non-terminal event steps
over the stream. -/
theorem runStream_exhausted_returns_partial (ctx : StreamCtx)
    (events : List (Nat × StreamEvent)) (acc : StreamAcc)
    (h : ∀ p ∈ events, isTerminalEvt p.2 = false ∧ p.1 ≤ ctx.deadline) :
    runStreamLoop ctx events acc =
      (.ok (mkStreamResult ctx
          (events.foldl (fun a p => stepNonTerminal ctx a p.2) acc)),
       events.foldl (fun a p => stepNonTerminal ctx a p.2) acc) := by
  induction events generalizing acc with
  | nil => rfl
  | cons p rest ih =>
    obtain ⟨now, ev⟩ := p
    have hp := h (now, ev) (by simp)
    have hrest : ∀ q ∈ rest, isTerminalEvt q.2 = false ∧ q.1 ≤ ctx.deadline :=
      fun q hq => h q (by simp [hq])
    have hnot : ¬ ctx.deadline < now := by
      have := hp.2; simp at this; omega
    cases ev with
    | start payload => simpa [runStreamLoop, hnot] using ih (stepNonTerminal ctx acc (.start payload)) hrest
    | output payload => simpa [runStreamLoop, hnot] using ih (stepNonTerminal ctx acc (.output payload)) hrest
    | statusEvt payload => simpa [runStreamLoop, hnot] using ih (stepNonTerminal ctx acc (.statusEvt payload)) hrest
    | endEvt payload => simp [isTerminalEvt] at hp
    | errorEvt payload => simp [isTerminalEvt] at hp
    | timeout => simp [isTerminalEvt] at hp
    | other name => simpa [runStreamLoop, hnot] using ih (stepNonTerminal ctx acc (.other name)) hrest

/-- Witness for C2 at a concrete stream: `start`, one `output` and one
`status` event and then end-of-stream yields the accumulated partial
result — no error, no discarded output. -/
theorem runStream_exhausted_returns_partial_witness :
    (∀ p ∈ ([(0, .start (some ⟨"cmd-9"⟩)),
             (1, .output (some ⟨some "hi\n", none⟩)),
             (2, .statusEvt (some ⟨some "running", none⟩))] :
          List (Nat × StreamEvent)),
        isTerminalEvt p.2 = false ∧ p.1 ≤ (100 : Nat)) ∧
    runStreamLoop ⟨"box-1", "ls", 5000, 100, true, false⟩
        [(0, .start (some ⟨"cmd-9"⟩)),
         (1, .output (some ⟨some "hi\n", none⟩)),
         (2, .statusEvt (some ⟨some "running", none⟩))] initStreamAcc
      = (.ok ⟨"cmd-9", "box-1", "ls", "running", "hi\n", "", 0⟩,
         ⟨"cmd-9", "running", "hi\n", "", 0, ["hi"], []⟩) := by
  refine ⟨by decide, ?_⟩
  have h := runStream_exhausted_returns_partial ⟨"box-1", "ls", 5000, 100, true, false⟩
    [(0, .start (some ⟨"cmd-9"⟩)),
     (1, .output (some ⟨some "hi\n", none⟩)),
     (2, .statusEvt (some ⟨some "running", none⟩))] initStreamAcc (by decide)
  rw [h]
  decide

lemma splitNLAux_ne_nil (cs : List Char) : splitNLAux cs ≠ [] := by
  induction cs with
  | nil => simp [splitNLAux]
  | cons c cs ih =>
    by_cases h : c = '\n'
    · simp [splitNLAux, h]
    · simp only [splitNLAux, h, if_false]
      cases hs : splitNLAux cs with
      | nil => exact absurd hs ih
      | cons l ls => simp

lemma splitNLAux_append_nl (cs : List Char) :
    splitNLAux (cs ++ ['\n']) = splitNLAux cs ++ [[]] := by
  induction cs with
  | nil => rfl
  | cons c cs ih =>
    by_cases h : c = '\n'
    · simp [splitNLAux, h, ih]
    · cases hs : splitNLAux cs with
      | nil => exact absurd hs (splitNLAux_ne_nil cs)
      | cons l ls =>
        have ih2 : splitNLAux (cs ++ ['\n']) = l :: (ls ++ [[]]) := by
          rw [ih, hs]; rfl
        simp [splitNLAux, h, ih2, hs]

lemma splitNLAux_append_char_last_ne_nil (c : Char) (hc : ¬ c = '\n') :
    ∀ (cs : List Char) (x : List Char),
      (splitNLAux (cs ++ [c])).getLast? = some x → x ≠ [] := by
  intro cs
  induction cs with
  | nil =>
    intro x hx
    simp [splitNLAux, hc] at hx
    simp [← hx]
  | cons a cs ih =>
    intro x hx
    by_cases ha : a = '\n'
    · rw [List.cons_append] at hx
      simp only [splitNLAux, ha, if_true] at hx
      cases hs : splitNLAux (cs ++ [c]) with
      | nil => exact absurd hs (splitNLAux_ne_nil _)
      | cons l ls =>
        rw [hs, List.getLast?_cons_cons] at hx
        exact ih x (hs ▸ hx)
    · rw [List.cons_append] at hx
      simp only [splitNLAux, ha, if_false] at hx
      cases hs : splitNLAux (cs ++ [c]) with
      | nil => exact absurd hs (splitNLAux_ne_nil _)
      | cons l ls =>
        rw [hs] at hx
        cases ls with
        | nil =>
          simp at hx
          intro hxe
          rw [hxe] at hx
          simp at hx
        | cons m ms =>
          rw [List.getLast?_cons_cons] at hx
          exact ih x (by rw [hs, List.getLast?_cons_cons]; exact hx)

lemma emittedLines_concat_of_ne (l : List String) (x : String) (hx : x ≠ "") :
    emittedLines (l ++ [x]) = l ++ [x] := by
  induction l with
  | nil => simp [emittedLines, hx]
  | cons a t ih =>
    cases t with
    | nil => simp [emittedLines, hx]
    | cons b u => simpa [emittedLines] using ih

lemma emittedLines_concat_empty (l : List String) :
    emittedLines (l ++ [""]) = l := by
  induction l with
  | nil => simp [emittedLines]
  | cons a t ih =>
    cases t with
    | nil => simp [emittedLines]
    | cons b u => simpa [emittedLines] using ih

lemma asString_eq_empty_iff (l : List Char) : l.asString = "" ↔ l = [] := by
  constructor
  · intro h
    have : (l.asString).data = ("" : String).data := by rw [h]
    simpa [List.asString] using this
  · intro h; simp [h, List.asString]

/-- C3 counterexample: an `output` event carrying the stdout fragment
with a complete line followed by the partial tail after its last newline.
The claim as stated says no callback fires for the tail; the code fires
the stdout callback for it (the dispatch guard only suppresses an empty
final piece), so the callback trace is both lines, not only the first. -/
theorem runStream_partial_tail_fires :
    (runWithStreaming ⟨"box-1", "ls", 5000, 100, true, false⟩
        [(0, .output (some ⟨some "A\nB", none⟩))]).2.stdoutCalls
      = ["A", "B"] ∧ (["A", "B"] : List String) ≠ ["A"] := by
  exact ⟨by decide, by decide⟩

/-- C3 amended: per non-empty decoded `output` fragment the matching
callback fires once per piece of the newline split, except that an empty
final piece (a fragment ending in a newline) fires no callback; in
particular, a fragment not ending in a newline fires a callback for every
split piece including its partial tail.  The first conjunct ties the
event loop to the per-fragment step; the next two give the stdout and
stderr callback traces; the last two settle which pieces fire. -/
theorem runStream_output_callbacks (ctx : StreamCtx) (acc : StreamAcc)
    (now : Nat) (rest : List (Nat × StreamEvent)) (s : String)
    (hnow : now ≤ ctx.deadline) (hs : s ≠ "")
    (hout : ctx.onStdoutSet = true) (herr : ctx.onStderrSet = true) :
    (runStreamLoop ctx ((now, .output (some ⟨some s, some s⟩)) :: rest) acc
       = runStreamLoop ctx rest (stepOutput ctx acc ⟨some s, some s⟩)) ∧
    (stepOutput ctx acc ⟨some s, none⟩).stdoutCalls
       = acc.stdoutCalls ++ emittedLines (splitNL s) ∧
    (stepOutput ctx acc ⟨none, some s⟩).stderrCalls
       = acc.stderrCalls ++ emittedLines (splitNL s) ∧
    (s.data.getLast? ≠ some '\n' → emittedLines (splitNL s) = splitNL s) ∧
    (s.data.getLast? = some '\n' → emittedLines (splitNL s) = (splitNL s).dropLast) := by
  have hnot : ¬ ctx.deadline < now := by omega
  refine ⟨by simp [runStreamLoop, hnot, stepNonTerminal], ?_, ?_, ?_, ?_⟩
  · simp [stepOutput, hs, hout]
  · simp [stepOutput, hs, herr]
  · intro hlast
    have hd : s.data ≠ [] := by
      intro h0
      exact hs (String.ext h0)
    obtain ⟨cs, c, hsplit⟩ : ∃ cs c, s.data = cs ++ [c] :=
      ⟨s.data.dropLast, s.data.getLast hd, (List.dropLast_append_getLast hd).symm⟩
    have hc : ¬ c = '\n' := by
      intro hcnl
      apply hlast
      rw [hsplit, hcnl, List.getLast?_concat]
    unfold splitNL
    rw [hsplit]
    cases hlp : (splitNLAux (cs ++ [c])).getLast? with
    | none =>
      exact absurd (List.getLast?_eq_none_iff.mp hlp) (splitNLAux_ne_nil _)
    | some x =>
      have hxne : x ≠ [] := splitNLAux_append_char_last_ne_nil c hc cs x hlp
      obtain ⟨front, hfront⟩ : ∃ front, splitNLAux (cs ++ [c]) = front ++ [x] := by
        have h1 : splitNLAux (cs ++ [c]) ≠ [] := splitNLAux_ne_nil _
        refine ⟨(splitNLAux (cs ++ [c])).dropLast, ?_⟩
        have h2 := List.dropLast_append_getLast h1
        have h3 : (splitNLAux (cs ++ [c])).getLast h1 = x := by
          have := List.getLast?_eq_getLast _ h1
          rw [hlp] at this
          exact (Option.some_injective _ this).symm
        rw [h3] at h2
        exact h2.symm
      rw [hfront, List.map_append]
      simp only [List.map_cons, List.map_nil]
      apply emittedLines_concat_of_ne
      intro hxs
      exact hxne ((asString_eq_empty_iff x).mp hxs)
  · intro hlast
    have hd : s.data ≠ [] := by
      intro h0; rw [h0] at hlast; simp at hlast
    have hsplit : s.data = s.data.dropLast ++ ['\n'] := by
      have h2 := List.dropLast_append_getLast hd
      have h3 : s.data.getLast hd = '\n' := by
        have := List.getLast?_eq_getLast _ hd
        rw [hlast] at this
        exact (Option.some_injective _ this).symm
      rw [h3] at h2
      exact h2.symm
    unfold splitNL
    rw [hsplit, splitNLAux_append_nl, List.map_append]
    simp only [List.map_cons, List.map_nil]
    rw [List.dropLast_concat]
    exact emittedLines_concat_empty _

/-- Witness for C3 at a concrete fragment: the piece after the last
newline is non-empty and a callback fires for it. -/
theorem runStream_output_callbacks_witness :
    (0 : Nat) ≤ 100 ∧ ("A\nB" : String) ≠ "" ∧
    (stepOutput ⟨"box-1", "ls", 5000, 100, true, true⟩ initStreamAcc
        ⟨some "A\nB", none⟩).stdoutCalls = [] ++ emittedLines (splitNL "A\nB") ∧
    emittedLines (splitNL "A\nB") = splitNL "A\nB" := by
  have h := runStream_output_callbacks ⟨"box-1", "ls", 5000, 100, true, true⟩
    initStreamAcc 0 [] "A\nB" (by decide) (by decide) rfl rfl
  refine ⟨by decide, by decide, ?_, ?_⟩
  · simpa [initStreamAcc] using h.2.1
  · exact h.2.2.2.1 (by decide)

/-! ## Theorems: polling executor -/

/-- C4 counterexample: a single fetch that completes strictly after the
deadline (instant 101 against deadline 100) and observes the terminal
status `done`.  The claim as stated requires a command-timeout error
whenever the terminal status is not observed strictly before the
deadline; the code checks the terminal status before the deadline and
returns the result. -/
theorem runPoll_late_terminal_accepted :
    runPollLoop 100 5000 [(101, ⟨"cmd-1", "box-1", "ls", "done", "out", "", none⟩)]
      = .result ⟨"cmd-1", "box-1", "ls", "done", "out", "", 0⟩ ∧
    runPollLoop 100 5000 [(101, ⟨"cmd-1", "box-1", "ls", "done", "out", "", none⟩)]
      ≠ .cmdTimeout "cmd-1" 5000 ∧
    ¬ (101 < 100) := by
  exact ⟨by decide, by decide, by decide⟩

/-- C4 amended: with every earlier fetch non-terminal and completing at
or before the deadline, the first decisive fetch settles the call — a
terminal status at any instant (exactly at the deadline included, and
even strictly after it) is accepted and returned as the result; a
non-terminal status at an instant strictly after the deadline returns
the command-timeout error bound to the fetched command id and the
configured timeout; and a trace whose fetches are all non-terminal and
at or before the deadline never produces the timeout error (the loop
keeps polling). -/
theorem runPoll_first_decisive (deadline : Nat) (tms : Int)
    (pre : List (Nat × Command)) (x : Nat × Command) (rest : List (Nat × Command))
    (hpre : ∀ p ∈ pre, isTerminalStatus p.2.status = false ∧ p.1 ≤ deadline) :
    (isTerminalStatus x.2.status = true →
      runPollLoop deadline tms (pre ++ x :: rest) = .result (mkPollResult x.2)) ∧
    (isTerminalStatus x.2.status = false → deadline < x.1 →
      runPollLoop deadline tms (pre ++ x :: rest) = .cmdTimeout x.2.id tms) ∧
    (isTerminalStatus x.2.status = false → x.1 ≤ deadline →
      runPollLoop deadline tms (pre ++ [x]) = .divergent) := by
  induction pre with
  | nil =>
    obtain ⟨now, c⟩ := x
    refine ⟨fun ht => ?_, fun hf hlate => ?_, fun hf hin => ?_⟩
    · simp [runPollLoop, ht]
    · simp [runPollLoop, hf, hlate]
    · have : ¬ deadline < now := by omega
      simp [runPollLoop, hf, this]
  | cons p pre ih =>
    obtain ⟨pnow, pc⟩ := p
    have hp := hpre (pnow, pc) (by simp)
    have hpre2 : ∀ q ∈ pre, isTerminalStatus q.2.status = false ∧ q.1 ≤ deadline :=
      fun q hq => hpre q (by simp [hq])
    have hnt : isTerminalStatus pc.status = false := hp.1
    have hnl : ¬ deadline < pnow := by have := hp.2; simp at this; omega
    have ih2 := ih hpre2
    refine ⟨fun ht => ?_, fun hf hlate => ?_, fun hf hin => ?_⟩
    · simpa [runPollLoop, hnt, hnl] using ih2.1 ht
    · simpa [runPollLoop, hnt, hnl] using ih2.2.1 hf hlate
    · simpa [runPollLoop, hnt, hnl] using ih2.2.2 hf hin

/-- Witness for C4 at a concrete trace: one in-deadline non-terminal
fetch, then a terminal fetch exactly at the deadline instant, accepted as
a result. -/
theorem runPoll_first_decisive_witness :
    (∀ p ∈ ([(50, ⟨"cmd-1", "box-1", "ls", "queued", "", "", none⟩)] :
          List (Nat × Command)),
        isTerminalStatus p.2.status = false ∧ p.1 ≤ (100 : Nat)) ∧
    isTerminalStatus "done" = true ∧
    runPollLoop 100 5000
        ([(50, ⟨"cmd-1", "box-1", "ls", "queued", "", "", none⟩)] ++
          (100, ⟨"cmd-1", "box-1", "ls", "done", "out", "", some 3⟩) :: [])
      = .result ⟨"cmd-1", "box-1", "ls", "done", "out", "", 3⟩ := by
  refine ⟨by decide, by decide, ?_⟩
  have h := (runPoll_first_decisive 100 5000
    [(50, ⟨"cmd-1", "box-1", "ls", "queued", "", "", none⟩)]
    (100, ⟨"cmd-1", "box-1", "ls", "done", "out", "", some 3⟩) [] (by decide)).1
    (by decide)
  rw [h]
  decide

/-! ## Theorems: box readiness poller -/

/-- C6 counterexample: entering the wait at instant 0 with the default
60-second timeout (deadline 60), a single refresh observing a
still-starting box at instant 200.  The elapsed time is 200 seconds but
the returned box-timeout error carries the configured 60 seconds, so the
claim that the error carries the elapsed seconds is false. -/
theorem waitUntilReady_timeout_not_elapsed :
    waitUntilReadyLoop (0 + 60) 60 [(200, ⟨"box-1", "starting", ""⟩)]
      = .boxTimeout "box-1" 60 ∧
    (200 - 0 : Int) ≠ 60 ∧
    WaitOutcome.boxTimeout "box-1" 60 ≠ WaitOutcome.boxTimeout "box-1" (200 - 0 : Int) := by
  exact ⟨by decide, by decide, by decide⟩

/-- C6 amended: with every earlier refresh non-decisive (status neither
`running`, `failed` nor `terminated`, instant at or before the deadline),
the first decisive refresh settles the wait — `running` succeeds;
`failed` or `terminated` fails immediately, at any instant (not subject
to the deadline), with the formatted error carrying the box id and the
diagnostic details; and any other status at an instant strictly past the
deadline yields the box-timeout error carrying the configured timeout in
whole seconds (not the elapsed time). -/
theorem waitUntilReady_first_decisive (deadline : Nat) (tsecs : Int)
    (pre : List (Nat × BoxState)) (x : Nat × BoxState) (rest : List (Nat × BoxState))
    (hpre : ∀ p ∈ pre,
      (p.2.status ≠ BoxStatusRunning ∧ p.2.status ≠ BoxStatusFailed ∧
        p.2.status ≠ BoxStatusTerminated) ∧ p.1 ≤ deadline) :
    (x.2.status = BoxStatusRunning →
      waitUntilReadyLoop deadline tsecs (pre ++ x :: rest) = .ok) ∧
    (x.2.status = BoxStatusFailed ∨ x.2.status = BoxStatusTerminated →
      waitUntilReadyLoop deadline tsecs (pre ++ x :: rest)
        = .startFailed ("box " ++ x.2.id ++ " failed to start: " ++ x.2.details)) ∧
    (x.2.status ≠ BoxStatusRunning → x.2.status ≠ BoxStatusFailed →
      x.2.status ≠ BoxStatusTerminated → deadline < x.1 →
      waitUntilReadyLoop deadline tsecs (pre ++ x :: rest)
        = .boxTimeout x.2.id tsecs) := by
  induction pre with
  | nil =>
    obtain ⟨now, b⟩ := x
    refine ⟨fun hr => ?_, fun hft => ?_, fun h1 h2 h3 hlate => ?_⟩
    · replace hr : b.status = BoxStatusRunning := hr
      simp [waitUntilReadyLoop, hr]
    · replace hft : b.status = BoxStatusFailed ∨ b.status = BoxStatusTerminated := hft
      have hr : ¬ b.status = BoxStatusRunning := by
        rcases hft with hf | ht
        · rw [hf]; decide
        · rw [ht]; decide
      simp [waitUntilReadyLoop, hr, hft]
    · replace h1 : b.status ≠ BoxStatusRunning := h1
      replace h2 : b.status ≠ BoxStatusFailed := h2
      replace h3 : b.status ≠ BoxStatusTerminated := h3
      simp [waitUntilReadyLoop, h1, h2, h3, hlate]
  | cons p pre ih =>
    obtain ⟨pnow, pb⟩ := p
    have hp := hpre (pnow, pb) (by simp)
    have hpre2 : ∀ q ∈ pre,
        (q.2.status ≠ BoxStatusRunning ∧ q.2.status ≠ BoxStatusFailed ∧
          q.2.status ≠ BoxStatusTerminated) ∧ q.1 ≤ deadline :=
      fun q hq => hpre q (by simp [hq])
    have hnl : ¬ deadline < pnow := by have := hp.2; simp at this; omega
    have ih2 := ih hpre2
    have hstep : ∀ t : List (Nat × BoxState),
        waitUntilReadyLoop deadline tsecs ((pnow, pb) :: t)
          = waitUntilReadyLoop deadline tsecs t := by
      intro t
      simp [waitUntilReadyLoop, hp.1.1, hp.1.2.1, hp.1.2.2, hnl]
    refine ⟨fun hr => ?_, fun hft => ?_, fun h1 h2 h3 hlate => ?_⟩
    · rw [List.cons_append, hstep]; exact ih2.1 hr
    · rw [List.cons_append, hstep]; exact ih2.2.1 hft
    · rw [List.cons_append, hstep]; exact ih2.2.2 h1 h2 h3 hlate

/-- Witness for C6 at a concrete trace: a starting box within the
deadline, then a failed box; the wait fails immediately with the
formatted error carrying the id and the details. -/
theorem waitUntilReady_first_decisive_witness :
    (∀ p ∈ ([(10, ⟨"box-1", "starting", ""⟩)] : List (Nat × BoxState)),
      (p.2.status ≠ BoxStatusRunning ∧ p.2.status ≠ BoxStatusFailed ∧
        p.2.status ≠ BoxStatusTerminated) ∧ p.1 ≤ (60 : Nat)) ∧
    waitUntilReadyLoop 60 60
        ([(10, ⟨"box-1", "starting", ""⟩)] ++
          (20, ⟨"box-1", "failed", "no capacity"⟩) :: [])
      = .startFailed "box box-1 failed to start: no capacity" := by
  refine ⟨by decide, ?_⟩
  have h := (waitUntilReady_first_decisive 60 60
    [(10, ⟨"box-1", "starting", ""⟩)] (20, ⟨"box-1", "failed", "no capacity"⟩) []
    (by decide)).2.1 (by left; rfl)
  rw [h]
  decide

/-! ## Theorems: snapshot readiness poller -/

/-- C7 (spec-modelled): with every earlier poll non-decisive, the first
decisive poll settles the wait — `ready` succeeds; `error` or `deleted`
fails immediately with the error naming that terminal status; and any
other status observed strictly past the deadline yields the
command-timeout error kind whose timeout field is the configured
deadline in milliseconds. -/
theorem waitSnapshotReady_first_decisive (start tms : Nat) (sid : String)
    (pre : List (Nat × String)) (x : Nat × String) (rest : List (Nat × String))
    (hpre : ∀ p ∈ pre,
      (p.2 ≠ SnapshotStatusReady ∧ p.2 ≠ SnapshotStatusError ∧
        p.2 ≠ SnapshotStatusDeleted) ∧ p.1 ≤ start + tms) :
    (x.2 = SnapshotStatusReady →
      waitSnapshotReadyLoop start tms sid (pre ++ x :: rest) = .ok) ∧
    (x.2 = SnapshotStatusError ∨ x.2 = SnapshotStatusDeleted →
      waitSnapshotReadyLoop start tms sid (pre ++ x :: rest)
        = .snapFailed ("snapshot " ++ sid ++ " ended with status: " ++ x.2)) ∧
    (x.2 ≠ SnapshotStatusReady → x.2 ≠ SnapshotStatusError →
      x.2 ≠ SnapshotStatusDeleted → start + tms < x.1 →
      waitSnapshotReadyLoop start tms sid (pre ++ x :: rest)
        = .cmdTimeout sid tms) := by
  induction pre with
  | nil =>
    obtain ⟨now, st⟩ := x
    refine ⟨fun hr => ?_, fun hft => ?_, fun h1 h2 h3 hlate => ?_⟩
    · replace hr : st = SnapshotStatusReady := hr
      simp [waitSnapshotReadyLoop, hr]
    · replace hft : st = SnapshotStatusError ∨ st = SnapshotStatusDeleted := hft
      have hr : ¬ st = SnapshotStatusReady := by
        rcases hft with hf | ht
        · rw [hf]; decide
        · rw [ht]; decide
      simp [waitSnapshotReadyLoop, hr, hft]
    · replace h1 : st ≠ SnapshotStatusReady := h1
      replace h2 : st ≠ SnapshotStatusError := h2
      replace h3 : st ≠ SnapshotStatusDeleted := h3
      simp [waitSnapshotReadyLoop, h1, h2, h3, hlate]
  | cons p pre ih =>
    obtain ⟨pnow, pst⟩ := p
    have hp := hpre (pnow, pst) (by simp)
    have hpre2 : ∀ q ∈ pre,
        (q.2 ≠ SnapshotStatusReady ∧ q.2 ≠ SnapshotStatusError ∧
          q.2 ≠ SnapshotStatusDeleted) ∧ q.1 ≤ start + tms :=
      fun q hq => hpre q (by simp [hq])
    have hnl : ¬ start + tms < pnow := by have := hp.2; simp at this; omega
    have ih2 := ih hpre2
    have hstep : ∀ t : List (Nat × String),
        waitSnapshotReadyLoop start tms sid ((pnow, pst) :: t)
          = waitSnapshotReadyLoop start tms sid t := by
      intro t
      simp [waitSnapshotReadyLoop, hp.1.1, hp.1.2.1, hp.1.2.2, hnl]
    refine ⟨fun hr => ?_, fun hft => ?_, fun h1 h2 h3 hlate => ?_⟩
    · rw [List.cons_append, hstep]; exact ih2.1 hr
    · rw [List.cons_append, hstep]; exact ih2.2.1 hft
    · rw [List.cons_append, hstep]; exact ih2.2.2 h1 h2 h3 hlate

/-- Witness for C7 at the traces of the repository's tests: two
`creating` polls then `ready` succeeds; a lone late `creating` poll
yields the command-timeout kind carrying the 50 ms deadline. -/
theorem waitSnapshotReady_first_decisive_witness :
    (∀ p ∈ ([(0, "creating"), (10, "creating")] : List (Nat × String)),
      (p.2 ≠ SnapshotStatusReady ∧ p.2 ≠ SnapshotStatusError ∧
        p.2 ≠ SnapshotStatusDeleted) ∧ p.1 ≤ (0 + 5000 : Nat)) ∧
    waitSnapshotReadyLoop 0 5000 "snap-1"
        ([(0, "creating"), (10, "creating")] ++ (20, "ready") :: []) = .ok ∧
    waitSnapshotReadyLoop 0 50 "snap-1" ([] ++ (60, "creating") :: [])
      = .cmdTimeout "snap-1" 50 := by
  refine ⟨by decide, ?_, ?_⟩
  · exact (waitSnapshotReady_first_decisive 0 5000 "snap-1"
      [(0, "creating"), (10, "creating")] (20, "ready") [] (by decide)).1 rfl
  · exact (waitSnapshotReady_first_decisive 0 50 "snap-1" [] (60, "creating") []
      (by decide)).2.2 (by decide) (by decide) (by decide) (by decide)

/-! ## Theorems: error classifier -/

/-- C8 counterexample: a 402 response with a parseable body.  The claim
as stated says the classifier returns the insufficient-credits kind with
the required and available quantities; the code returns a generic
`APIError` for status 402. -/
theorem parseError_402_counterexample :
    parseError 402 ⟨"payment required", "not enough credits", ""⟩
      = NewAPIError 402 "not enough credits" ∧
    (NewAPIError 402 "not enough credits").kind = ErrorKind.api ∧
    parseError 402 ⟨"payment required", "not enough credits", ""⟩
      ≠ NewInsufficientCreditsError 10 5 := by
  refine ⟨by decide, rfl, by decide⟩

/-- C8 amended: a 402 response with a parseable body is classified as a
generic `APIError` carrying status 402 and the body's text (`message`
preferred over `error`); the insufficient-credits error kind exists in
the taxonomy with status 402 and the required and available quantities,
but `parseError` never produces it for any status code or body. -/
theorem parseError_402_is_api (errResp : ErrorResponse) (sc : Int)
    (er : ErrorResponse) (req av : ℚ) :
    parseError 402 errResp
      = NewAPIError 402 (if errResp.message = "" then errResp.error else errResp.message) ∧
    (NewInsufficientCreditsError req av).statusCode = 402 ∧
    (NewInsufficientCreditsError req av).kind = .insufficientCredits req av ∧
    parseError sc er ≠ NewInsufficientCreditsError req av := by
  refine ⟨?_, rfl, rfl, ?_⟩
  · have h1 : ¬ (402 : Int) = 401 := by decide
    simp [parseError, h1]
  · intro h
    have hk := congrArg SDKError.kind h
    unfold parseError at hk
    split_ifs at hk <;> simp [NewAPIError, NewInsufficientCreditsError] at hk

/-! ## Theorems: option defaulting -/

/-- C10: for a non-nil options struct, `Run` writes the defaults through
the caller's pointer before executing — a zero timeout becomes 300000 ms
and a zero poll interval becomes 1000 ms, non-zero values are kept, and
the callback fields are untouched; the caller's struct after `Run`
returns is `normalizeOptions` of its pre-call value, so these writes
remain visible to the caller. -/
theorem run_option_defaults {κ : Type} (opts : CommandOptions κ) :
    (opts.timeoutMs = 0 → (normalizeOptions opts).timeoutMs = 300000) ∧
    (opts.timeoutMs ≠ 0 → (normalizeOptions opts).timeoutMs = opts.timeoutMs) ∧
    (opts.pollIntervalMs = 0 → (normalizeOptions opts).pollIntervalMs = 1000) ∧
    (opts.pollIntervalMs ≠ 0 →
      (normalizeOptions opts).pollIntervalMs = opts.pollIntervalMs) ∧
    (normalizeOptions opts).onStdout = opts.onStdout ∧
    (normalizeOptions opts).onStderr = opts.onStderr := by
  unfold normalizeOptions
  by_cases ht : opts.timeoutMs = 0 <;> by_cases hp : opts.pollIntervalMs = 0 <;>
    simp [ht, hp]

/-- Witness for C10 at a concrete options value: both fields zero, one
callback set; the defaults are written and the callbacks preserved. -/
theorem run_option_defaults_witness :
    ((⟨0, 0, some (), none⟩ : CommandOptions Unit).timeoutMs = 0) ∧
    (normalizeOptions (⟨0, 0, some (), none⟩ : CommandOptions Unit)).timeoutMs = 300000 ∧
    (normalizeOptions (⟨0, 0, some (), none⟩ : CommandOptions Unit)).pollIntervalMs = 1000 ∧
    (normalizeOptions (⟨0, 0, some (), none⟩ : CommandOptions Unit)).onStdout = some () := by
  have h := run_option_defaults (⟨0, 0, some (), none⟩ : CommandOptions Unit)
  exact ⟨rfl, h.1 rfl, h.2.2.1 rfl, h.2.2.2.2.1⟩

end Devento
